import Mathlib

/-!
Verification of the dbc schema-diff engine and driver protocol engine.

The definitions below are a shallow embedding of the Go sources:
  * `internal/models` (struct definitions, as declared in the repository),
  * `internal/core/compare.go` (`CompareSnapshots`, `compareTables`,
    `hasChanges`, `columnsEqual`, `indexesEqual`, `foreignKeysEqual`),
  * `internal/db/jsonrpc.go` and `internal/db/plugin.go` (`execute`,
    `initialize`, `NewPluginDriver`), with the subprocess boundary
    represented by its observable outcome (run failure flag, deadline flag,
    captured streams, and the JSON-decoding results as oracle functions).

Go maps built by inserting entries in slice order are embedded by
`goMapGet`, which returns the last entry of the list whose key matches
(last insert wins, exactly as in a Go map built by a range loop).
Go `int64` values are embedded as `Int`; the one arithmetic operation the
compared code performs (`target.RowCount - baseline.RowCount`) is embedded
with explicit two's-complement wrapping (`wrap64`).
-/

/-- Embeds `models.Column` (time-irrelevant fields only; all fields that
`compare.go` reads are present, plus `position` and `extra`, which it does
not read). -/
structure Column where
  name : String
  position : Int
  dataType : String
  columnType : String
  isNullable : Bool
  defaultValue : Option String
  key : String
  extra : String
deriving DecidableEq, Repr

/-- Embeds `models.IndexColumn`. -/
structure IndexColumn where
  name : String
  sequence : Int
  collation : String
deriving DecidableEq, Repr

/-- Embeds `models.Index`.  The Go field `Type` is embedded as `idxType`. -/
structure Index where
  name : String
  isUnique : Bool
  isPrimary : Bool
  idxType : String
  columns : List IndexColumn
deriving DecidableEq, Repr

/-- Embeds `models.ForeignKey`. -/
structure ForeignKey where
  name : String
  column : String
  referencedTable : String
  referencedColumn : String
  onDelete : String
  onUpdate : String
deriving DecidableEq, Repr

/-- Embeds `models.Constraint`. -/
structure Constraint where
  name : String
  ctype : String
deriving DecidableEq, Repr

/-- Embeds `models.Table` (the `*time.Time` fields are omitted; nothing in
the compared code reads them). -/
structure Table where
  name : String
  engine : String
  collation : String
  rowCount : Int
  exactRowCount : Option Int
  dataLength : Int
  avgRowLength : Int
  checksum : String
  columns : List Column
  indexes : List Index
  foreignKeys : List ForeignKey
  constraints : List Constraint
deriving DecidableEq, Repr

/-- Embeds `models.SchemaSnapshot` (timestamp and capture metadata omitted;
`CompareSnapshots` reads only `Tables`). -/
structure SchemaSnapshot where
  key : String
  database : String
  host : String
  dbType : String
  tables : List Table
deriving DecidableEq, Repr

/-- Embeds `models.ColumnDiff`. -/
structure ColumnDiff where
  name : String
  before : Column
  after : Column
deriving DecidableEq, Repr

/-- Embeds `models.IndexDiff`. -/
structure IndexDiff where
  name : String
  before : Index
  after : Index
deriving DecidableEq, Repr

/-- Embeds `models.ForeignKeyDiff`. -/
structure ForeignKeyDiff where
  name : String
  before : ForeignKey
  after : ForeignKey
deriving DecidableEq, Repr

/-- Embeds `models.TableDiff`. -/
structure TableDiff where
  name : String
  columnsAdded : List Column
  columnsRemoved : List Column
  columnsModified : List ColumnDiff
  indexesAdded : List Index
  indexesRemoved : List Index
  indexesModified : List IndexDiff
  fkAdded : List ForeignKey
  fkRemoved : List ForeignKey
  fkModified : List ForeignKeyDiff
  constraintsAdded : List Constraint
  constraintsRemoved : List Constraint
  rowCountChange : Option Int
  checksumChanged : Bool
deriving DecidableEq, Repr

/-- Embeds `models.ChangeSummary` (Go `int` counters start at zero and are
only ever incremented, so `Nat` is used). -/
structure ChangeSummary where
  tablesAdded : Nat
  tablesRemoved : Nat
  tablesModified : Nat
  columnsAdded : Nat
  columnsRemoved : Nat
  columnsModified : Nat
  indexesAdded : Nat
  indexesRemoved : Nat
  indexesModified : Nat
  foreignKeysAdded : Nat
  foreignKeysRemoved : Nat
  foreignKeysModified : Nat
  hasChangesFlag : Bool
deriving DecidableEq, Repr

/-- Embeds `models.ChangeSet`. -/
structure ChangeSet where
  snapshot1Key : String
  snapshot2Key : String
  tablesAdded : List Table
  tablesRemoved : List Table
  tablesModified : List TableDiff
  summary : ChangeSummary
deriving DecidableEq, Repr

/-- The zero value `models.ChangeSummary{}`. -/
def emptySummary : ChangeSummary :=
  ⟨0, 0, 0, 0, 0, 0, 0, 0, 0, 0, 0, 0, false⟩

/-- The Go map built by `for _, x := range l { m[key(x)] = x }`, queried at
key `n`: the last element of `l` whose key is `n` (later inserts win). -/
def goMapGet (key : α → String) (l : List α) (n : String) : Option α :=
  l.foldl (fun acc x => if key x = n then some x else acc) none

theorem goMapGet_foldl_acc (key : α → String) (n : String) (l : List α)
    (acc : Option α) :
    l.foldl (fun a x => if key x = n then some x else a) acc =
      match goMapGet key l n with
      | some v => some v
      | none => acc := by
  induction l generalizing acc with
  | nil => simp [goMapGet]
  | cons x l ih =>
    simp only [goMapGet, List.foldl_cons] at *
    rw [ih, ih (if key x = n then some x else none)]
    cases hl : l.foldl (fun a x => if key x = n then some x else a) none with
    | some v => simp
    | none => by_cases h : key x = n <;> simp [h]

theorem goMapGet_cons (key : α → String) (n : String) (x : α) (l : List α) :
    goMapGet key (x :: l) n =
      match goMapGet key l n with
      | some v => some v
      | none => if key x = n then some x else none := by
  simp only [goMapGet, List.foldl_cons]
  exact goMapGet_foldl_acc key n l _

theorem goMapGet_eq_some (key : α → String) {l : List α} {n : String} {x : α}
    (h : goMapGet key l n = some x) : x ∈ l ∧ key x = n := by
  induction l with
  | nil => simp [goMapGet] at h
  | cons y l ih =>
    rw [goMapGet_cons] at h
    cases hl : goMapGet key l n with
    | some v =>
      rw [hl] at h
      cases h
      obtain ⟨hm, hk⟩ := ih hl
      exact ⟨List.mem_cons_of_mem _ hm, hk⟩
    | none =>
      rw [hl] at h
      by_cases hxy : key y = n
      · simp [hxy] at h
        subst h
        exact ⟨List.mem_cons_self _ _, hxy⟩
      · simp [hxy] at h

theorem goMapGet_eq_none_iff (key : α → String) (l : List α) (n : String) :
    goMapGet key l n = none ↔ ∀ x ∈ l, key x ≠ n := by
  induction l with
  | nil => simp [goMapGet]
  | cons y l ih =>
    rw [goMapGet_cons]
    cases hl : goMapGet key l n with
    | some v =>
      simp only []
      constructor
      · intro h; cases h
      · intro h
        exact absurd ((ih.mpr (fun x hx => h x (List.mem_cons_of_mem _ hx))).symm.trans hl)
          (by simp)
    | none =>
      by_cases hxy : key y = n
      · simp [hxy]
      · simp [hxy]
        intro x hx
        exact (ih.mp hl) x hx

theorem goMapGet_self (key : α → String) {l : List α}
    (hnd : (l.map key).Nodup) {x : α} (hx : x ∈ l) :
    goMapGet key l (key x) = some x := by
  induction l with
  | nil => cases hx
  | cons y l ih =>
    rw [goMapGet_cons]
    rw [List.map_cons, List.nodup_cons] at hnd
    rcases List.mem_cons.mp hx with rfl | hx
    · have : goMapGet key l (key x) = none := by
        rw [goMapGet_eq_none_iff]
        intro z hz hk
        exact hnd.1 (hk ▸ List.mem_map_of_mem key hz)
      simp [this]
    · rw [ih hnd.2 hx]

/-- Two's-complement wrapping to the signed 64-bit range, the semantics of
Go `int64` arithmetic. -/
def wrap64 (x : Int) : Int :=
  (x + 2 ^ 63) % 2 ^ 64 - 2 ^ 63

/-- `x` fits in a signed 64-bit integer. -/
def int64Range (x : Int) : Prop :=
  -(2 ^ 63) ≤ x ∧ x < 2 ^ 63

instance (x : Int) : Decidable (int64Range x) := by
  unfold int64Range; infer_instance

theorem wrap64_eq_self {x : Int} (h : int64Range x) : wrap64 x = x := by
  obtain ⟨h1, h2⟩ := h
  unfold wrap64
  rw [Int.emod_eq_of_lt (by omega) (by omega)]
  omega

/-- Go `int64` subtraction `a - b` (`compare.go` line 151). -/
def int64Sub (a b : Int) : Int :=
  wrap64 (a - b)

/-- Embeds `columnsEqual` (`compare.go` lines 179-186).  The Go pointer
dereference `*a.DefaultValue == *b.DefaultValue` under the two non-nil
guards is the `Option` equality under the two `isSome` guards. -/
def columnsEqual (a b : Column) : Bool :=
  a.name == b.name &&
  a.columnType == b.columnType &&
  a.isNullable == b.isNullable &&
  a.key == b.key &&
  ((a.defaultValue.isNone && b.defaultValue.isNone) ||
   (a.defaultValue.isSome && b.defaultValue.isSome &&
    a.defaultValue == b.defaultValue))

/-- Embeds `indexesEqual` (`compare.go` lines 188-197).  Go's
`reflect.DeepEqual(a.Columns, b.Columns)` on `[]IndexColumn` is structural
list equality. -/
def indexesEqual (a b : Index) : Bool :=
  if a.name != b.name ||
     a.isUnique != b.isUnique ||
     a.isPrimary != b.isPrimary ||
     a.idxType != b.idxType then
    false
  else
    decide (a.columns = b.columns)

/-- Embeds `foreignKeysEqual` (`compare.go` lines 199-206). -/
def foreignKeysEqual (a b : ForeignKey) : Bool :=
  a.name == b.name &&
  a.column == b.column &&
  a.referencedTable == b.referencedTable &&
  a.referencedColumn == b.referencedColumn &&
  a.onDelete == b.onDelete &&
  a.onUpdate == b.onUpdate

/-- The classification of one target column in the first column loop of
`compareTables` (lines 65-77): present in baseline and unequal yields the
`ColumnDiff` appended to `ColumnsModified`, otherwise nothing. -/
def columnModEntry (baselineColumns : List Column) (c : Column) :
    Option ColumnDiff :=
  match goMapGet Column.name baselineColumns c.name with
  | some bc => if columnsEqual bc c then none else some ⟨c.name, bc, c⟩
  | none => none

/-- Same classification for one target index (lines 96-109). -/
def indexModEntry (baselineIndexes : List Index) (ix : Index) :
    Option IndexDiff :=
  match goMapGet Index.name baselineIndexes ix.name with
  | some bix => if indexesEqual bix ix then none else some ⟨ix.name, bix, ix⟩
  | none => none

/-- Same classification for one target foreign key (lines 128-141). -/
def fkModEntry (baselineFKs : List ForeignKey) (fk : ForeignKey) :
    Option ForeignKeyDiff :=
  match goMapGet ForeignKey.name baselineFKs fk.name with
  | some bfk => if foreignKeysEqual bfk fk then none else some ⟨fk.name, bfk, fk⟩
  | none => none

/-- Embeds `compareTables` (`compare.go` lines 49-163).  Each Go loop pair
appends, in slice order, the absent entries to the `Added`/`Removed` lists
and the present-but-unequal entries to the `Modified` lists; those appends
are the subsequences written here as `filter`/`filterMap`.  `Constraints`
are never compared by the source, so both constraint lists stay empty. -/
def compareTables (baseline target : Table) : TableDiff where
  name := baseline.name
  columnsAdded :=
    target.columns.filter
      (fun c => (goMapGet Column.name baseline.columns c.name).isNone)
  columnsRemoved :=
    baseline.columns.filter
      (fun c => (goMapGet Column.name target.columns c.name).isNone)
  columnsModified := target.columns.filterMap (columnModEntry baseline.columns)
  indexesAdded :=
    target.indexes.filter
      (fun ix => (goMapGet Index.name baseline.indexes ix.name).isNone)
  indexesRemoved :=
    baseline.indexes.filter
      (fun ix => (goMapGet Index.name target.indexes ix.name).isNone)
  indexesModified := target.indexes.filterMap (indexModEntry baseline.indexes)
  fkAdded :=
    target.foreignKeys.filter
      (fun fk => (goMapGet ForeignKey.name baseline.foreignKeys fk.name).isNone)
  fkRemoved :=
    baseline.foreignKeys.filter
      (fun fk => (goMapGet ForeignKey.name target.foreignKeys fk.name).isNone)
  fkModified :=
    target.foreignKeys.filterMap (fkModEntry baseline.foreignKeys)
  constraintsAdded := []
  constraintsRemoved := []
  rowCountChange :=
    if baseline.rowCount ≠ target.rowCount then
      some (int64Sub target.rowCount baseline.rowCount)
    else
      none
  checksumChanged :=
    baseline.checksum != "" && target.checksum != "" &&
    baseline.checksum != target.checksum

/-- Embeds `hasChanges` (`compare.go` lines 165-177). -/
def hasChanges (diff : TableDiff) : Bool :=
  decide (diff.columnsAdded.length > 0) ||
  decide (diff.columnsRemoved.length > 0) ||
  decide (diff.columnsModified.length > 0) ||
  decide (diff.indexesAdded.length > 0) ||
  decide (diff.indexesRemoved.length > 0) ||
  decide (diff.indexesModified.length > 0) ||
  decide (diff.fkAdded.length > 0) ||
  decide (diff.fkRemoved.length > 0) ||
  decide (diff.fkModified.length > 0) ||
  diff.rowCountChange.isSome ||
  diff.checksumChanged

/-- The per-target-table step of the first loop of `CompareSnapshots`
(lines 26-37): a table present in baseline contributes its diff to
`TablesModified` when `hasChanges` holds (incrementing the summary
counter), an absent one is appended to `TablesAdded`. -/
def compareStep (baselineTables : List Table) (cs : ChangeSet) (t : Table) :
    ChangeSet :=
  match goMapGet Table.name baselineTables t.name with
  | some baselineTable =>
    let diff := compareTables baselineTable t
    if hasChanges diff then
      { cs with
        tablesModified := cs.tablesModified ++ [diff],
        summary :=
          { cs.summary with tablesModified := cs.summary.tablesModified + 1 } }
    else
      cs
  | none =>
    { cs with
      tablesAdded := cs.tablesAdded ++ [t],
      summary :=
        { cs.summary with tablesAdded := cs.summary.tablesAdded + 1 } }

/-- The per-baseline-table step of the second loop of `CompareSnapshots`
(lines 39-44): a baseline table absent from the target is appended to
`TablesRemoved`. -/
def removedStep (targetTables : List Table) (cs : ChangeSet) (t : Table) :
    ChangeSet :=
  match goMapGet Table.name targetTables t.name with
  | some _ => cs
  | none =>
    { cs with
      tablesRemoved := cs.tablesRemoved ++ [t],
      summary :=
        { cs.summary with tablesRemoved := cs.summary.tablesRemoved + 1 } }

/-- Embeds `CompareSnapshots` (`compare.go` lines 11-47). -/
def CompareSnapshots (baseline target : SchemaSnapshot) : ChangeSet :=
  let changeSet : ChangeSet :=
    { snapshot1Key := "", snapshot2Key := "",
      tablesAdded := [], tablesRemoved := [], tablesModified := [],
      summary := emptySummary }
  let afterTarget := target.tables.foldl (compareStep baseline.tables) changeSet
  baseline.tables.foldl (removedStep target.tables) afterTarget

/-- The `TableDiff` contribution of one target table, as seen after the
first loop: `some` exactly when the table exists in baseline and its diff
has changes. -/
def modEntry (baselineTables : List Table) (t : Table) : Option TableDiff :=
  match goMapGet Table.name baselineTables t.name with
  | some baselineTable =>
    let diff := compareTables baselineTable t
    if hasChanges diff then some diff else none
  | none => none

theorem foldl_compareStep_fields (bts : List Table) (l : List Table)
    (cs : ChangeSet) :
    (l.foldl (compareStep bts) cs).tablesAdded =
        cs.tablesAdded ++
          l.filter (fun t => (goMapGet Table.name bts t.name).isNone) ∧
    (l.foldl (compareStep bts) cs).tablesModified =
        cs.tablesModified ++ l.filterMap (modEntry bts) ∧
    (l.foldl (compareStep bts) cs).tablesRemoved = cs.tablesRemoved ∧
    (l.foldl (compareStep bts) cs).snapshot1Key = cs.snapshot1Key ∧
    (l.foldl (compareStep bts) cs).snapshot2Key = cs.snapshot2Key ∧
    (l.foldl (compareStep bts) cs).summary =
      { cs.summary with
        tablesAdded := cs.summary.tablesAdded +
          (l.filter (fun t => (goMapGet Table.name bts t.name).isNone)).length,
        tablesModified := cs.summary.tablesModified +
          (l.filterMap (modEntry bts)).length } := by
  induction l generalizing cs with
  | nil => simp
  | cons t l ih =>
    simp only [List.foldl_cons, List.filter_cons, List.filterMap_cons]
    cases hb : goMapGet Table.name bts t.name with
    | some bt =>
      have hstep : compareStep bts cs t =
          if hasChanges (compareTables bt t) then
            { cs with
              tablesModified := cs.tablesModified ++ [compareTables bt t],
              summary := { cs.summary with
                tablesModified := cs.summary.tablesModified + 1 } }
          else cs := by
        simp [compareStep, hb]
      have hmod : modEntry bts t =
          if hasChanges (compareTables bt t) then some (compareTables bt t)
          else none := by
        simp [modEntry, hb]
      by_cases hc : hasChanges (compareTables bt t)
      · rw [hstep, if_pos hc, hmod, if_pos hc]
        obtain ⟨h1, h2, h3, h4, h5, h6⟩ := ih
          { cs with
            tablesModified := cs.tablesModified ++ [compareTables bt t],
            summary := { cs.summary with
              tablesModified := cs.summary.tablesModified + 1 } }
        refine ⟨?_, ?_, ?_, ?_, ?_, ?_⟩
        · simpa [hb] using h1
        · rw [h2]; simp [hb]
        · simpa using h3
        · simpa using h4
        · simpa using h5
        · rw [h6]; simp [hb]; omega
      · rw [hstep, if_neg hc, hmod, if_neg hc]
        obtain ⟨h1, h2, h3, h4, h5, h6⟩ := ih cs
        refine ⟨?_, ?_, h3, h4, h5, ?_⟩
        · simpa [hb] using h1
        · simpa using h2
        · rw [h6]; simp [hb]
    | none =>
      have hstep : compareStep bts cs t =
          { cs with
            tablesAdded := cs.tablesAdded ++ [t],
            summary := { cs.summary with
              tablesAdded := cs.summary.tablesAdded + 1 } } := by
        simp [compareStep, hb]
      have hmod : modEntry bts t = none := by simp [modEntry, hb]
      rw [hstep, hmod]
      obtain ⟨h1, h2, h3, h4, h5, h6⟩ := ih
        { cs with
          tablesAdded := cs.tablesAdded ++ [t],
          summary := { cs.summary with
            tablesAdded := cs.summary.tablesAdded + 1 } }
      refine ⟨?_, ?_, ?_, ?_, ?_, ?_⟩
      · rw [h1]; simp [hb]
      · simpa using h2
      · simpa using h3
      · simpa using h4
      · simpa using h5
      · rw [h6]; simp [hb]; omega

theorem foldl_removedStep_fields (tts : List Table) (l : List Table)
    (cs : ChangeSet) :
    (l.foldl (removedStep tts) cs).tablesAdded = cs.tablesAdded ∧
    (l.foldl (removedStep tts) cs).tablesModified = cs.tablesModified ∧
    (l.foldl (removedStep tts) cs).tablesRemoved =
        cs.tablesRemoved ++
          l.filter (fun t => (goMapGet Table.name tts t.name).isNone) ∧
    (l.foldl (removedStep tts) cs).snapshot1Key = cs.snapshot1Key ∧
    (l.foldl (removedStep tts) cs).snapshot2Key = cs.snapshot2Key ∧
    (l.foldl (removedStep tts) cs).summary =
      { cs.summary with
        tablesRemoved := cs.summary.tablesRemoved +
          (l.filter (fun t => (goMapGet Table.name tts t.name).isNone)).length } := by
  induction l generalizing cs with
  | nil => simp
  | cons t l ih =>
    simp only [List.foldl_cons, List.filter_cons]
    cases hb : goMapGet Table.name tts t.name with
    | some bt =>
      have hstep : removedStep tts cs t = cs := by simp [removedStep, hb]
      rw [hstep]
      obtain ⟨h1, h2, h3, h4, h5, h6⟩ := ih cs
      refine ⟨h1, h2, ?_, h4, h5, ?_⟩
      · simpa [hb] using h3
      · rw [h6]; simp [hb]
    | none =>
      have hstep : removedStep tts cs t =
          { cs with
            tablesRemoved := cs.tablesRemoved ++ [t],
            summary := { cs.summary with
              tablesRemoved := cs.summary.tablesRemoved + 1 } } := by
        simp [removedStep, hb]
      rw [hstep]
      obtain ⟨h1, h2, h3, h4, h5, h6⟩ := ih
        { cs with
          tablesRemoved := cs.tablesRemoved ++ [t],
          summary := { cs.summary with
            tablesRemoved := cs.summary.tablesRemoved + 1 } }
      refine ⟨?_, ?_, ?_, ?_, ?_, ?_⟩
      · simpa using h1
      · simpa using h2
      · rw [h3]; simp [hb]
      · simpa using h4
      · simpa using h5
      · rw [h6]; simp [hb]; omega

theorem compareSnapshots_tablesAdded (A B : SchemaSnapshot) :
    (CompareSnapshots A B).tablesAdded =
      B.tables.filter (fun t => (goMapGet Table.name A.tables t.name).isNone) := by
  unfold CompareSnapshots
  have h2 := foldl_removedStep_fields B.tables A.tables
    (B.tables.foldl (compareStep A.tables)
      { snapshot1Key := "", snapshot2Key := "",
        tablesAdded := [], tablesRemoved := [], tablesModified := [],
        summary := emptySummary })
  have h1 := foldl_compareStep_fields A.tables B.tables
    { snapshot1Key := "", snapshot2Key := "",
      tablesAdded := [], tablesRemoved := [], tablesModified := [],
      summary := emptySummary }
  rw [h2.1, h1.1]
  simp

theorem compareSnapshots_tablesModified (A B : SchemaSnapshot) :
    (CompareSnapshots A B).tablesModified =
      B.tables.filterMap (modEntry A.tables) := by
  unfold CompareSnapshots
  have h2 := foldl_removedStep_fields B.tables A.tables
    (B.tables.foldl (compareStep A.tables)
      { snapshot1Key := "", snapshot2Key := "",
        tablesAdded := [], tablesRemoved := [], tablesModified := [],
        summary := emptySummary })
  have h1 := foldl_compareStep_fields A.tables B.tables
    { snapshot1Key := "", snapshot2Key := "",
      tablesAdded := [], tablesRemoved := [], tablesModified := [],
      summary := emptySummary }
  rw [h2.2.1, h1.2.1]
  simp

theorem compareSnapshots_tablesRemoved (A B : SchemaSnapshot) :
    (CompareSnapshots A B).tablesRemoved =
      A.tables.filter (fun t => (goMapGet Table.name B.tables t.name).isNone) := by
  unfold CompareSnapshots
  have h2 := foldl_removedStep_fields B.tables A.tables
    (B.tables.foldl (compareStep A.tables)
      { snapshot1Key := "", snapshot2Key := "",
        tablesAdded := [], tablesRemoved := [], tablesModified := [],
        summary := emptySummary })
  have h1 := foldl_compareStep_fields A.tables B.tables
    { snapshot1Key := "", snapshot2Key := "",
      tablesAdded := [], tablesRemoved := [], tablesModified := [],
      summary := emptySummary }
  rw [h2.2.2.1, h1.2.2.1]
  simp

theorem compareSnapshots_summary (A B : SchemaSnapshot) :
    (CompareSnapshots A B).summary =
      { emptySummary with
        tablesAdded :=
          (B.tables.filter
            (fun t => (goMapGet Table.name A.tables t.name).isNone)).length,
        tablesModified := (B.tables.filterMap (modEntry A.tables)).length,
        tablesRemoved :=
          (A.tables.filter
            (fun t => (goMapGet Table.name B.tables t.name).isNone)).length } := by
  unfold CompareSnapshots
  have h2 := foldl_removedStep_fields B.tables A.tables
    (B.tables.foldl (compareStep A.tables)
      { snapshot1Key := "", snapshot2Key := "",
        tablesAdded := [], tablesRemoved := [], tablesModified := [],
        summary := emptySummary })
  have h1 := foldl_compareStep_fields A.tables B.tables
    { snapshot1Key := "", snapshot2Key := "",
      tablesAdded := [], tablesRemoved := [], tablesModified := [],
      summary := emptySummary }
  rw [h2.2.2.2.2.2, h1.2.2.2.2.2]
  simp [emptySummary]

theorem columnsEqual_iff (a b : Column) :
    columnsEqual a b = true ↔
      (a.name = b.name ∧ a.columnType = b.columnType ∧
       a.isNullable = b.isNullable ∧ a.key = b.key ∧
       ((a.defaultValue = none ∧ b.defaultValue = none) ∨
        (∃ v w, a.defaultValue = some v ∧ b.defaultValue = some w ∧ v = w))) := by
  unfold columnsEqual
  cases ha : a.defaultValue with
  | none =>
    cases hb : b.defaultValue with
    | none => simp [and_assoc]
    | some w => simp
  | some v =>
    cases hb : b.defaultValue with
    | none => simp
    | some w =>
      simp only [Option.isNone_some, Option.isSome_some, Bool.false_and,
        Bool.true_and, Bool.false_or, Bool.and_eq_true, beq_iff_eq,
        Option.some.injEq]
      constructor
      · rintro ⟨⟨⟨⟨h1, h2⟩, h3⟩, h4⟩, h5⟩
        exact ⟨h1, h2, h3, h4, Or.inr ⟨v, w, rfl, rfl, h5⟩⟩
      · rintro ⟨h1, h2, h3, h4, h5⟩
        refine ⟨⟨⟨⟨h1, h2⟩, h3⟩, h4⟩, ?_⟩
        rcases h5 with ⟨h5, -⟩ | ⟨v', w', hv, hw, hvw⟩
        · cases h5
        · cases hv; cases hw; exact hvw

theorem columnsEqual_self (c : Column) : columnsEqual c c = true := by
  rw [columnsEqual_iff]
  refine ⟨rfl, rfl, rfl, rfl, ?_⟩
  cases h : c.defaultValue with
  | none => exact Or.inl ⟨rfl, rfl⟩
  | some v => exact Or.inr ⟨v, v, rfl, rfl, rfl⟩

theorem indexesEqual_iff (a b : Index) :
    indexesEqual a b = true ↔
      (a.name = b.name ∧ a.isUnique = b.isUnique ∧ a.isPrimary = b.isPrimary ∧
       a.idxType = b.idxType ∧ a.columns = b.columns) := by
  unfold indexesEqual
  by_cases h : a.name != b.name || a.isUnique != b.isUnique ||
      a.isPrimary != b.isPrimary || a.idxType != b.idxType
  · rw [if_pos h]
    simp only [Bool.or_eq_true, bne_iff_ne] at h
    constructor
    · intro hf; cases hf
    · rintro ⟨h1, h2, h3, h4, -⟩
      rcases h with ((h | h) | h) | h <;> exact absurd (by assumption) h
  · rw [if_neg h]
    simp only [Bool.or_eq_true, bne_iff_ne, not_or, not_not] at h
    obtain ⟨⟨⟨h1, h2⟩, h3⟩, h4⟩ := h
    simp [h1, h2, h3, h4]

theorem indexesEqual_self (ix : Index) : indexesEqual ix ix = true := by
  rw [indexesEqual_iff]
  exact ⟨rfl, rfl, rfl, rfl, rfl⟩

theorem foreignKeysEqual_iff (a b : ForeignKey) :
    foreignKeysEqual a b = true ↔
      (a.name = b.name ∧ a.column = b.column ∧
       a.referencedTable = b.referencedTable ∧
       a.referencedColumn = b.referencedColumn ∧
       a.onDelete = b.onDelete ∧ a.onUpdate = b.onUpdate) := by
  unfold foreignKeysEqual
  simp only [Bool.and_eq_true, beq_iff_eq]
  tauto

theorem foreignKeysEqual_self (fk : ForeignKey) :
    foreignKeysEqual fk fk = true := by
  rw [foreignKeysEqual_iff]
  exact ⟨rfl, rfl, rfl, rfl, rfl, rfl⟩

theorem hasChanges_iff (d : TableDiff) :
    hasChanges d = true ↔
      (d.columnsAdded ≠ [] ∨ d.columnsRemoved ≠ [] ∨ d.columnsModified ≠ [] ∨
       d.indexesAdded ≠ [] ∨ d.indexesRemoved ≠ [] ∨ d.indexesModified ≠ [] ∨
       d.fkAdded ≠ [] ∨ d.fkRemoved ≠ [] ∨ d.fkModified ≠ [] ∨
       d.rowCountChange ≠ none ∨ d.checksumChanged = true) := by
  unfold hasChanges
  simp only [Bool.or_eq_true, decide_eq_true_eq, List.length_pos,
    Option.isSome_iff_ne_none]
  tauto

/-- The §3 data-model invariant on a table: its columns, indexes and
foreign keys are each unique by name. -/
def Table.wellFormed (t : Table) : Prop :=
  (t.columns.map Column.name).Nodup ∧
  (t.indexes.map Index.name).Nodup ∧
  (t.foreignKeys.map ForeignKey.name).Nodup

instance (t : Table) : Decidable t.wellFormed := by
  unfold Table.wellFormed; infer_instance

/-- The §3 data-model invariant on a snapshot: tables unique by name, each
table well-formed. -/
def SchemaSnapshot.wellFormed (s : SchemaSnapshot) : Prop :=
  (s.tables.map Table.name).Nodup ∧ ∀ t ∈ s.tables, t.wellFormed

instance (s : SchemaSnapshot) : Decidable s.wellFormed := by
  unfold SchemaSnapshot.wellFormed; infer_instance

/-- Generic membership lemma for the per-name `Modified` lists: when the
source list is unique by key and every produced diff is named after its
source entry, a diff named after `t` is present exactly when `t` itself
produces one. -/
theorem mem_filterMap_name_iff {α β : Type} (key : α → String)
    (dname : β → String) (f : α → Option β) (l : List α)
    (hf : ∀ a b, f a = some b → dname b = key a)
    (hnd : (l.map key).Nodup) (t : α) (ht : t ∈ l) :
    (∃ d ∈ l.filterMap f, dname d = key t) ↔ (f t).isSome := by
  constructor
  · rintro ⟨d, hd, hname⟩
    rw [List.mem_filterMap] at hd
    obtain ⟨a, ha, hfa⟩ := hd
    have hkey : key a = key t := (hf a d hfa) ▸ hname
    have : a = t := List.inj_on_of_nodup_map hnd ha ht hkey
    subst this
    rw [hfa]
    rfl
  · intro h
    cases hft : f t with
    | none => rw [hft] at h; cases h
    | some d =>
      exact ⟨d, List.mem_filterMap.mpr ⟨t, ht, hft⟩, hf t d hft⟩

theorem compareTables_self (t : Table) (h : t.wellFormed) :
    hasChanges (compareTables t t) = false := by
  obtain ⟨hc, hi, hf⟩ := h
  have hcolsAdded :
      t.columns.filter
        (fun c => (goMapGet Column.name t.columns c.name).isNone) = [] := by
    rw [List.filter_eq_nil_iff]
    intro c hcm
    rw [goMapGet_self Column.name hc hcm]
    simp
  have hcolsMod : t.columns.filterMap (columnModEntry t.columns) = [] := by
    rw [List.filterMap_eq_nil_iff]
    intro c hcm
    unfold columnModEntry
    rw [goMapGet_self Column.name hc hcm]
    simp [columnsEqual_self]
  have hidxAdded :
      t.indexes.filter
        (fun ix => (goMapGet Index.name t.indexes ix.name).isNone) = [] := by
    rw [List.filter_eq_nil_iff]
    intro ix hm
    rw [goMapGet_self Index.name hi hm]
    simp
  have hidxMod : t.indexes.filterMap (indexModEntry t.indexes) = [] := by
    rw [List.filterMap_eq_nil_iff]
    intro ix hm
    unfold indexModEntry
    rw [goMapGet_self Index.name hi hm]
    simp [indexesEqual_self]
  have hfkAdded :
      t.foreignKeys.filter
        (fun fk => (goMapGet ForeignKey.name t.foreignKeys fk.name).isNone)
        = [] := by
    rw [List.filter_eq_nil_iff]
    intro fk hm
    rw [goMapGet_self ForeignKey.name hf hm]
    simp
  have hfkMod :
      t.foreignKeys.filterMap (fkModEntry t.foreignKeys) = [] := by
    rw [List.filterMap_eq_nil_iff]
    intro fk hm
    unfold fkModEntry
    rw [goMapGet_self ForeignKey.name hf hm]
    simp [foreignKeysEqual_self]
  unfold hasChanges compareTables
  simp [hcolsAdded, hcolsMod, hidxAdded, hidxMod, hfkAdded, hfkMod]

/-- Embeds `db.JSONRPCResponse` (`jsonrpc.go` lines 13-17); the
`json.RawMessage` payload is kept as the raw text. -/
structure JSONRPCResponse where
  success : Bool
  data : String
  error : String
deriving DecidableEq, Repr

/-- Embeds `db.DriverFeatures`. -/
structure DriverFeatures where
  supportsChecksums : Bool
  supportsRowCounts : Bool
  supportsIndexes : Bool
  supportsForeignKeys : Bool
  supportsConstraints : Bool
deriving DecidableEq, Repr

/-- Embeds `db.GetVersionResponse`. -/
structure GetVersionResponse where
  name : String
  version : String
deriving DecidableEq, Repr

/-- Embeds `db.GetFeaturesResponse`. -/
structure GetFeaturesResponse where
  features : DriverFeatures
deriving DecidableEq, Repr

/-- Embeds `db.PluginDriver` (`plugin.go` lines 22-27). -/
structure PluginDriver where
  name : String
  version : String
  path : String
  features : DriverFeatures
deriving DecidableEq, Repr

/-- The failure taxonomy of a single driver call, mirroring the four error
returns of `execute` (`plugin.go` lines 96-110). -/
inductive DriverCallError where
  | timeout
  | execFailed (stderr : String)
  | parseFailed (stdout : String)
  | driverError (msg : String)
deriving DecidableEq, Repr

/-- Embeds `execute` (`plugin.go` lines 74-113), from the point where the
subprocess has been launched.  The subprocess boundary enters as its
observable outcome: `runFailed` is whether `cmd.Run()` returned an error
(non-zero exit, spawn failure, or kill-on-timeout), `deadlineExceeded` is
whether the call context's deadline fired, `stderr`/`stdout` are the
captured streams, and `decodeResponse` is the `json.Unmarshal` oracle on
the captured standard output. -/
def execute (runFailed deadlineExceeded : Bool) (stderr stdout : String)
    (decodeResponse : String → Option JSONRPCResponse) :
    Except DriverCallError JSONRPCResponse :=
  if runFailed then
    if deadlineExceeded then
      Except.error DriverCallError.timeout
    else
      Except.error (DriverCallError.execFailed stderr)
  else
    match decodeResponse stdout with
    | none => Except.error (DriverCallError.parseFailed stdout)
    | some response =>
      if response.success then
        Except.ok response
      else
        Except.error (DriverCallError.driverError response.error)

/-- Embeds `initialize` (`plugin.go` lines 48-72) by explicit state
passing: the two `execute` calls enter as their results, the two
`json.Unmarshal` calls on the envelopes' `data` as oracle functions.
Each early `return err` of the source is an `Except.error`. -/
def initDriver (pd : PluginDriver)
    (versionResult : Except DriverCallError JSONRPCResponse)
    (decodeVersion : String → Option GetVersionResponse)
    (featuresResult : Except DriverCallError JSONRPCResponse)
    (decodeFeatures : String → Option GetFeaturesResponse) :
    Except String PluginDriver :=
  match versionResult with
  | Except.error _ => Except.error "failed to get driver version"
  | Except.ok versionResp =>
    match decodeVersion versionResp.data with
    | none => Except.error "failed to parse version response"
    | some versionData =>
      let pd := { pd with version := versionData.version }
      match featuresResult with
      | Except.error _ => Except.error "failed to get driver features"
      | Except.ok featuresResp =>
        match decodeFeatures featuresResp.data with
        | none => Except.error "failed to parse features response"
        | some featuresData =>
          Except.ok { pd with features := featuresData.features }

/-- Embeds `NewPluginDriver` (`plugin.go` lines 29-45) with Go's
`(*PluginDriver, error)` pair of returns kept as a pair, so that the
nil-handle-on-failure behaviour is a provable property rather than a type
artifact.  `findResult` is the outcome of `findDriverExecutable`. -/
def NewPluginDriver (driverName : String) (findResult : Option String)
    (versionResult : Except DriverCallError JSONRPCResponse)
    (decodeVersion : String → Option GetVersionResponse)
    (featuresResult : Except DriverCallError JSONRPCResponse)
    (decodeFeatures : String → Option GetFeaturesResponse) :
    Option PluginDriver × Option String :=
  match findResult with
  | none => (none, some "driver not found")
  | some driverPath =>
    let pd : PluginDriver :=
      { name := driverName, version := "", path := driverPath,
        features := ⟨false, false, false, false, false⟩ }
    match initDriver pd versionResult decodeVersion featuresResult
        decodeFeatures with
    | Except.error e => (none, some ("failed to initialize driver: " ++ e))
    | Except.ok pd2 => (some pd2, none)

/-! Concrete sample data used by the witness theorems. -/

def sampleColumn : Column :=
  ⟨"id", 1, "int", "int(11)", false, none, "PRI", ""⟩

def sampleColumn2 : Column :=
  ⟨"email", 2, "varchar", "varchar(255)", true, some "none@x", "", ""⟩

def sampleIndex : Index :=
  ⟨"PRIMARY", true, true, "BTREE", [⟨"id", 1, ""⟩]⟩

def sampleFK : ForeignKey :=
  ⟨"fk_user", "user_id", "users", "id", "CASCADE", "RESTRICT"⟩

def sampleTable : Table :=
  ⟨"users", "InnoDB", "", 100, none, 0, 0, "abc",
   [sampleColumn, sampleColumn2], [sampleIndex], [sampleFK], []⟩

def sampleSnapshot : SchemaSnapshot :=
  ⟨"base", "db", "h", "mysql", [sampleTable]⟩

def samplePhone : Column :=
  ⟨"phone", 3, "varchar", "varchar(20)", true, none, "", ""⟩

def sampleTableV2 : Table :=
  { sampleTable with columns := [sampleColumn, sampleColumn2, samplePhone] }

def sampleSnapshotV2 : SchemaSnapshot :=
  ⟨"target", "db", "h", "mysql", [sampleTableV2]⟩

/-- C1: for every snapshot S (satisfying the §3 data-model invariant that
tables, and each table's columns/indexes/foreign keys, are unique by name),
`CompareSnapshots S S` has empty `TablesAdded`, `TablesRemoved` and
`TablesModified`. -/
theorem c1_compare_self_empty (S : SchemaSnapshot) (h : S.wellFormed) :
    (CompareSnapshots S S).tablesAdded = [] ∧
    (CompareSnapshots S S).tablesRemoved = [] ∧
    (CompareSnapshots S S).tablesModified = [] := by
  obtain ⟨hnd, hwf⟩ := h
  refine ⟨?_, ?_, ?_⟩
  · rw [compareSnapshots_tablesAdded, List.filter_eq_nil_iff]
    intro t ht
    rw [goMapGet_self Table.name hnd ht]
    simp
  · rw [compareSnapshots_tablesRemoved, List.filter_eq_nil_iff]
    intro t ht
    rw [goMapGet_self Table.name hnd ht]
    simp
  · rw [compareSnapshots_tablesModified, List.filterMap_eq_nil_iff]
    intro t ht
    unfold modEntry
    rw [goMapGet_self Table.name hnd ht]
    simp [compareTables_self t (hwf t ht)]

theorem c1_witness :
    sampleSnapshot.wellFormed ∧
    ((CompareSnapshots sampleSnapshot sampleSnapshot).tablesAdded = [] ∧
     (CompareSnapshots sampleSnapshot sampleSnapshot).tablesRemoved = [] ∧
     (CompareSnapshots sampleSnapshot sampleSnapshot).tablesModified = []) :=
  ⟨by decide, c1_compare_self_empty sampleSnapshot (by decide)⟩

/-- C2: for every two snapshots A and B, the list of tables recorded as
added by `CompareSnapshots A B` is exactly the list recorded as removed by
`CompareSnapshots B A`, and vice versa (so in particular the sets agree). -/
theorem c2_added_removed_swap (A B : SchemaSnapshot) :
    (CompareSnapshots A B).tablesAdded = (CompareSnapshots B A).tablesRemoved ∧
    (CompareSnapshots A B).tablesRemoved = (CompareSnapshots B A).tablesAdded := by
  constructor
  · rw [compareSnapshots_tablesAdded, compareSnapshots_tablesRemoved]
  · rw [compareSnapshots_tablesRemoved, compareSnapshots_tablesAdded]

/-- C10: for every pair of snapshots, the `ChangeSummary` of
`CompareSnapshots` has the three table counters equal to the lengths of the
corresponding collections, while all nine entity-level counters are zero
and `HasChanges` is false — whatever column/index/foreign-key changes the
change set contains. -/
theorem c10_summary_shape (A B : SchemaSnapshot) :
    (CompareSnapshots A B).summary.tablesAdded =
        (CompareSnapshots A B).tablesAdded.length ∧
    (CompareSnapshots A B).summary.tablesRemoved =
        (CompareSnapshots A B).tablesRemoved.length ∧
    (CompareSnapshots A B).summary.tablesModified =
        (CompareSnapshots A B).tablesModified.length ∧
    (CompareSnapshots A B).summary.columnsAdded = 0 ∧
    (CompareSnapshots A B).summary.columnsRemoved = 0 ∧
    (CompareSnapshots A B).summary.columnsModified = 0 ∧
    (CompareSnapshots A B).summary.indexesAdded = 0 ∧
    (CompareSnapshots A B).summary.indexesRemoved = 0 ∧
    (CompareSnapshots A B).summary.indexesModified = 0 ∧
    (CompareSnapshots A B).summary.foreignKeysAdded = 0 ∧
    (CompareSnapshots A B).summary.foreignKeysRemoved = 0 ∧
    (CompareSnapshots A B).summary.foreignKeysModified = 0 ∧
    (CompareSnapshots A B).summary.hasChangesFlag = false := by
  rw [compareSnapshots_summary, compareSnapshots_tablesAdded,
    compareSnapshots_tablesRemoved, compareSnapshots_tablesModified]
  simp [emptySummary]

theorem modEntry_name (bts : List Table) (a : Table) (b : TableDiff)
    (hab : modEntry bts a = some b) : b.name = a.name := by
  unfold modEntry at hab
  cases hga : goMapGet Table.name bts a.name with
  | none => rw [hga] at hab; cases hab
  | some bta =>
    rw [hga] at hab
    by_cases hch : hasChanges (compareTables bta a)
    · simp only [hch, if_true] at hab
      cases hab
      show (compareTables bta a).name = a.name
      show bta.name = a.name
      exact (goMapGet_eq_some Table.name hga).2
    · simp only [hch, if_false] at hab
      cases hab

/-- C3: for every pair of snapshots with target tables unique by name, a
table `t` present in both sides appears (by name) in `TablesModified` if
and only if its computed diff has a non-empty added/removed/modified
column, index or foreign-key collection, a row-count change, or a checksum
mismatch; otherwise it is omitted from the change set entirely. -/
theorem c3_modified_iff_changed (A B : SchemaSnapshot) (t bt : Table)
    (d : TableDiff) (ht : t ∈ B.tables)
    (hnd : (B.tables.map Table.name).Nodup)
    (hbt : goMapGet Table.name A.tables t.name = some bt)
    (hd : d = compareTables bt t) :
    (∃ e ∈ (CompareSnapshots A B).tablesModified, e.name = t.name) ↔
      (d.columnsAdded ≠ [] ∨ d.columnsRemoved ≠ [] ∨ d.columnsModified ≠ [] ∨
       d.indexesAdded ≠ [] ∨ d.indexesRemoved ≠ [] ∨ d.indexesModified ≠ [] ∨
       d.fkAdded ≠ [] ∨ d.fkRemoved ≠ [] ∨ d.fkModified ≠ [] ∨
       d.rowCountChange ≠ none ∨ d.checksumChanged = true) := by
  subst hd
  rw [compareSnapshots_tablesModified]
  rw [mem_filterMap_name_iff Table.name TableDiff.name (modEntry A.tables)
    B.tables (modEntry_name A.tables) hnd t ht]
  rw [← hasChanges_iff]
  unfold modEntry
  rw [hbt]
  by_cases hch : hasChanges (compareTables bt t) = true
  · simp [hch]
  · simp [hch]

theorem c3_witness :
    ∃ e ∈ (CompareSnapshots sampleSnapshot sampleSnapshotV2).tablesModified,
      e.name = sampleTableV2.name :=
  (c3_modified_iff_changed sampleSnapshot sampleSnapshotV2 sampleTableV2
      sampleTable (compareTables sampleTable sampleTableV2)
      (by decide) (by decide) (by decide) rfl).mpr
    (Or.inl (by decide))

theorem columnModEntry_name (bcs : List Column) (a : Column) (b : ColumnDiff)
    (hab : columnModEntry bcs a = some b) : b.name = a.name := by
  unfold columnModEntry at hab
  cases hga : goMapGet Column.name bcs a.name with
  | none => rw [hga] at hab; cases hab
  | some bc =>
    rw [hga] at hab
    by_cases he : columnsEqual bc a = true
    · simp only [he, if_true] at hab; cases hab
    · simp only [he, if_false] at hab
      cases hab
      rfl

theorem indexModEntry_name (bis : List Index) (a : Index) (b : IndexDiff)
    (hab : indexModEntry bis a = some b) : b.name = a.name := by
  unfold indexModEntry at hab
  cases hga : goMapGet Index.name bis a.name with
  | none => rw [hga] at hab; cases hab
  | some bix =>
    rw [hga] at hab
    by_cases he : indexesEqual bix a = true
    · simp only [he, if_true] at hab; cases hab
    · simp only [he, if_false] at hab
      cases hab
      rfl

/-- C4: for a column `c` of the target table whose name also occurs in the
baseline table (as `bc`), and target column names unique, `compareTables`
reports the column as modified exactly when the two versions differ in
full type string, nullability, key-role tag, or default value — two absent
defaults equal, a present default equal to an absent one unequal.  The
right-hand side mentions neither `position` nor `extra`: a column
differing only there is never reported. -/
theorem c4_column_modified_iff (bt tt : Table) (c bc : Column)
    (ht : c ∈ tt.columns)
    (hnd : (tt.columns.map Column.name).Nodup)
    (hbc : goMapGet Column.name bt.columns c.name = some bc) :
    (∃ cd ∈ (compareTables bt tt).columnsModified, cd.name = c.name) ↔
      ¬(bc.columnType = c.columnType ∧ bc.isNullable = c.isNullable ∧
        bc.key = c.key ∧
        ((bc.defaultValue = none ∧ c.defaultValue = none) ∨
         (∃ v w, bc.defaultValue = some v ∧ c.defaultValue = some w ∧
            v = w))) := by
  have hname : bc.name = c.name := (goMapGet_eq_some Column.name hbc).2
  show (∃ cd ∈ tt.columns.filterMap (columnModEntry bt.columns),
      cd.name = c.name) ↔ _
  rw [mem_filterMap_name_iff Column.name ColumnDiff.name
    (columnModEntry bt.columns) tt.columns (columnModEntry_name bt.columns)
    hnd c ht]
  unfold columnModEntry
  rw [hbc]
  by_cases he : columnsEqual bc c = true
  · obtain ⟨-, h2, h3, h4, h5⟩ := (columnsEqual_iff bc c).mp he
    exact iff_of_false (by simp [he]) (not_not.mpr ⟨h2, h3, h4, h5⟩)
  · refine iff_of_true (by simp [he]) ?_
    intro hcontra
    exact he ((columnsEqual_iff bc c).mpr
      ⟨hname, hcontra.1, hcontra.2.1, hcontra.2.2.1, hcontra.2.2.2⟩)

/-- C5: for an index `ix` of the target table whose name also occurs in
the baseline table (as `bix`), and target index names unique,
`compareTables` reports the index as modified exactly when the two
versions differ in uniqueness flag, primary flag, method tag, or the exact
ordered member-column sequence; consequently a reordered but set-identical
column list (an unequal list) is always reported as modified. -/
theorem c5_index_modified_iff (bt tt : Table) (ix bix : Index)
    (ht : ix ∈ tt.indexes)
    (hnd : (tt.indexes.map Index.name).Nodup)
    (hbx : goMapGet Index.name bt.indexes ix.name = some bix) :
    ((∃ idiff ∈ (compareTables bt tt).indexesModified, idiff.name = ix.name) ↔
      ¬(bix.isUnique = ix.isUnique ∧ bix.isPrimary = ix.isPrimary ∧
        bix.idxType = ix.idxType ∧ bix.columns = ix.columns)) ∧
    (bix.columns ≠ ix.columns →
      ∃ idiff ∈ (compareTables bt tt).indexesModified, idiff.name = ix.name) := by
  have hname : bix.name = ix.name := (goMapGet_eq_some Index.name hbx).2
  have hmain : (∃ idiff ∈ (compareTables bt tt).indexesModified,
      idiff.name = ix.name) ↔
      ¬(bix.isUnique = ix.isUnique ∧ bix.isPrimary = ix.isPrimary ∧
        bix.idxType = ix.idxType ∧ bix.columns = ix.columns) := by
    show (∃ idiff ∈ tt.indexes.filterMap (indexModEntry bt.indexes),
        idiff.name = ix.name) ↔ _
    rw [mem_filterMap_name_iff Index.name IndexDiff.name
      (indexModEntry bt.indexes) tt.indexes (indexModEntry_name bt.indexes)
      hnd ix ht]
    unfold indexModEntry
    rw [hbx]
    by_cases he : indexesEqual bix ix = true
    · obtain ⟨-, h2, h3, h4, h5⟩ := (indexesEqual_iff bix ix).mp he
      exact iff_of_false (by simp [he]) (not_not.mpr ⟨h2, h3, h4, h5⟩)
    · refine iff_of_true (by simp [he]) ?_
      intro hcontra
      exact he ((indexesEqual_iff bix ix).mpr
        ⟨hname, hcontra.1, hcontra.2.1, hcontra.2.2.1, hcontra.2.2.2⟩)
  refine ⟨hmain, fun hne => hmain.mpr ?_⟩
  intro hcontra
  exact hne hcontra.2.2.2

def sampleColumn2Mod : Column :=
  { sampleColumn2 with columnType := "varchar(100)" }

def sampleTableV3 : Table :=
  { sampleTable with columns := [sampleColumn, sampleColumn2Mod] }

theorem c4_witness :
    ∃ cd ∈ (compareTables sampleTable sampleTableV3).columnsModified,
      cd.name = sampleColumn2Mod.name :=
  (c4_column_modified_iff sampleTable sampleTableV3 sampleColumn2Mod
      sampleColumn2 (by decide) (by decide) (by decide)).mpr
    (fun h => absurd h.1 (by decide))

def sampleIndexAB : Index :=
  ⟨"idx_ab", false, false, "BTREE", [⟨"a", 1, ""⟩, ⟨"b", 2, ""⟩]⟩

def sampleIndexBA : Index :=
  ⟨"idx_ab", false, false, "BTREE", [⟨"b", 2, ""⟩, ⟨"a", 1, ""⟩]⟩

def idxTableBase : Table :=
  ⟨"ti", "", "", 0, none, 0, 0, "", [], [sampleIndexAB], [], []⟩

def idxTableTarget : Table :=
  ⟨"ti", "", "", 0, none, 0, 0, "", [], [sampleIndexBA], [], []⟩

theorem c5_witness :
    ∃ idiff ∈ (compareTables idxTableBase idxTableTarget).indexesModified,
      idiff.name = sampleIndexBA.name :=
  (c5_index_modified_iff idxTableBase idxTableTarget sampleIndexBA
      sampleIndexAB (by decide) (by decide) (by decide)).2 (by decide)

/-- C6: for every pair of table versions, `compareTables` records a
row-count change exactly when the two `RowCount` fields differ (the field
holding the approximate count, with no exactness precondition), and the
recorded value is `target.RowCount - baseline.RowCount` computed in signed
64-bit arithmetic — hence exactly the integer difference whenever that
difference fits in an `int64`. -/
theorem c6_row_count_delta (bt tt : Table) :
    ((compareTables bt tt).rowCountChange = none ↔
      bt.rowCount = tt.rowCount) ∧
    (∀ d, (compareTables bt tt).rowCountChange = some d →
      d = wrap64 (tt.rowCount - bt.rowCount)) ∧
    (∀ d, (compareTables bt tt).rowCountChange = some d →
      int64Range (tt.rowCount - bt.rowCount) →
      d = tt.rowCount - bt.rowCount) := by
  have hval : (compareTables bt tt).rowCountChange =
      if bt.rowCount ≠ tt.rowCount then
        some (int64Sub tt.rowCount bt.rowCount)
      else none := rfl
  by_cases h : bt.rowCount = tt.rowCount
  · rw [hval, if_neg (not_not.mpr h)]
    refine ⟨by simp [h], ?_, ?_⟩ <;> intro d hd <;> cases hd
  · rw [hval, if_pos h]
    refine ⟨by simp [h], ?_, ?_⟩
    · intro d hd
      cases hd
      rfl
    · intro d hd hr
      cases hd
      exact wrap64_eq_self hr

def rowTableBase : Table :=
  ⟨"tr", "", "", 5, none, 0, 0, "", [], [], [], []⟩

def rowTableTarget : Table :=
  ⟨"tr", "", "", 3, none, 0, 0, "", [], [], [], []⟩

theorem c6_witness :
    (-2 : Int) = rowTableTarget.rowCount - rowTableBase.rowCount :=
  (c6_row_count_delta rowTableBase rowTableTarget).2.2 (-2)
    (by decide) (by decide)

/-- C7: for every pair of table versions, `compareTables` flags the
checksum as changed exactly when both versions carry a non-empty checksum
and the two differ; an absent (empty) checksum on either side leaves the
flag false. -/
theorem c7_checksum_flag (bt tt : Table) :
    (compareTables bt tt).checksumChanged = true ↔
      (bt.checksum ≠ "" ∧ tt.checksum ≠ "" ∧ bt.checksum ≠ tt.checksum) := by
  have hval : (compareTables bt tt).checksumChanged =
      (bt.checksum != "" && tt.checksum != "" &&
        bt.checksum != tt.checksum) := rfl
  rw [hval]
  simp [and_assoc]

/-- C8: a driver call yields a response exactly when the subprocess run
succeeds (zero exit within the deadline), its standard output decodes as a
response envelope, and that envelope has `success = true`; the returned
response is the decoded envelope itself (so no envelope data reaches the
caller on any failure path); a failed run with the deadline fired is a
timeout error; and a decoded `success:false` envelope yields the
driver-error carrying the driver-supplied message. -/
theorem c8_execute_contract (runFailed deadlineExceeded : Bool)
    (stderr stdout : String)
    (decodeResponse : String → Option JSONRPCResponse) :
    ((∃ r, execute runFailed deadlineExceeded stderr stdout decodeResponse =
        Except.ok r) ↔
      (runFailed = false ∧
       ∃ r, decodeResponse stdout = some r ∧ r.success = true)) ∧
    (∀ r, execute runFailed deadlineExceeded stderr stdout decodeResponse =
        Except.ok r →
      decodeResponse stdout = some r ∧ r.success = true) ∧
    (runFailed = true → deadlineExceeded = true →
      execute runFailed deadlineExceeded stderr stdout decodeResponse =
        Except.error DriverCallError.timeout) ∧
    (runFailed = true → deadlineExceeded = false →
      execute runFailed deadlineExceeded stderr stdout decodeResponse =
        Except.error (DriverCallError.execFailed stderr)) ∧
    (∀ r, runFailed = false → decodeResponse stdout = some r →
      r.success = false →
      execute runFailed deadlineExceeded stderr stdout decodeResponse =
        Except.error (DriverCallError.driverError r.error)) := by
  unfold execute
  cases runFailed with
  | true =>
    cases deadlineExceeded with
    | true => simp
    | false => simp
  | false =>
    cases hdec : decodeResponse stdout with
    | none => simp [hdec]
    | some r0 =>
      cases hs : r0.success with
      | true =>
        refine ⟨?_, ?_, ?_, ?_, ?_⟩
        · simp [hs]
        · intro r hr
          simp [hs] at hr
          subst hr
          exact ⟨rfl, hs⟩
        · intro h; cases h
        · intro h; cases h
        · intro r _ hr hsf
          injection hr with hr
          subst hr
          exact absurd hsf (by simp [hs])
      | false =>
        refine ⟨?_, ?_, ?_, ?_, ?_⟩
        · simp [hs]
        · intro r hr
          simp [hs] at hr
        · intro h; cases h
        · intro h; cases h
        · intro r _ hr hsf
          injection hr with hr
          subst hr
          simp [hs]

def witDecodeFail : String → Option JSONRPCResponse :=
  fun _ => some ⟨false, "", "boom"⟩

theorem c8_witness :
    execute false false "" "out" witDecodeFail =
      Except.error (DriverCallError.driverError "boom") :=
  (c8_execute_contract false false "" "out" witDecodeFail).2.2.2.2
    ⟨false, "", "boom"⟩ rfl rfl rfl

/-- C9: `NewPluginDriver` yields a handle exactly when the executable is
resolved and both the get_version and the get_features calls succeed with
decodable data; a returned handle carries the decoded version and features
(and the requested name); and a handle is returned exactly when no error
is, so every initialization failure returns a nil handle plus an error and
never a partially-initialized handle. -/
theorem c9_new_plugin_driver (driverName : String) (findResult : Option String)
    (versionResult : Except DriverCallError JSONRPCResponse)
    (decodeVersion : String → Option GetVersionResponse)
    (featuresResult : Except DriverCallError JSONRPCResponse)
    (decodeFeatures : String → Option GetFeaturesResponse) :
    (((NewPluginDriver driverName findResult versionResult decodeVersion
        featuresResult decodeFeatures).1 ≠ none) ↔
      (findResult ≠ none ∧
       (∃ vr vd, versionResult = Except.ok vr ∧
          decodeVersion vr.data = some vd) ∧
       (∃ fr fd, featuresResult = Except.ok fr ∧
          decodeFeatures fr.data = some fd))) ∧
    (∀ pd vr vd fr fd,
      (NewPluginDriver driverName findResult versionResult decodeVersion
        featuresResult decodeFeatures).1 = some pd →
      versionResult = Except.ok vr → decodeVersion vr.data = some vd →
      featuresResult = Except.ok fr → decodeFeatures fr.data = some fd →
      pd.version = vd.version ∧ pd.features = fd.features ∧
        pd.name = driverName) ∧
    ((NewPluginDriver driverName findResult versionResult decodeVersion
        featuresResult decodeFeatures).1 = none ↔
      (NewPluginDriver driverName findResult versionResult decodeVersion
        featuresResult decodeFeatures).2 ≠ none) := by
  unfold NewPluginDriver initDriver
  cases findResult with
  | none => simp
  | some driverPath =>
    cases versionResult with
    | error e => simp
    | ok vr0 =>
      cases hdv : decodeVersion vr0.data with
      | none => simp [hdv]
      | some vd0 =>
        cases featuresResult with
        | error e => simp [hdv]
        | ok fr0 =>
          cases hdf : decodeFeatures fr0.data with
          | none => simp [hdv, hdf]
          | some fd0 =>
            simp only [hdv, hdf]
            refine ⟨by simp [hdv, hdf], ?_, by simp⟩
            intro pd vr vd fr fd hpd hvr hvd hfr hfd
            cases hvr
            cases hfr
            rw [hdv] at hvd
            cases hvd
            rw [hdf] at hfd
            cases hfd
            cases hpd
            exact ⟨rfl, rfl, rfl⟩

def witDecodeVersion : String → Option GetVersionResponse :=
  fun _ => some ⟨"mysql", "1.2.3"⟩

def witDecodeFeatures : String → Option GetFeaturesResponse :=
  fun _ => some ⟨⟨true, true, true, true, true⟩⟩

def witVersionResp : JSONRPCResponse := ⟨true, "vdata", ""⟩

def witFeaturesResp : JSONRPCResponse := ⟨true, "fdata", ""⟩

def witPluginDriver : PluginDriver :=
  ⟨"mysql", "1.2.3", "/opt/dbc/bin/dbc-driver-mysql",
   ⟨true, true, true, true, true⟩⟩

theorem c9_witness :
    witPluginDriver.version = "1.2.3" ∧
    witPluginDriver.features = ⟨true, true, true, true, true⟩ ∧
    witPluginDriver.name = "mysql" :=
  (c9_new_plugin_driver "mysql" (some "/opt/dbc/bin/dbc-driver-mysql")
      (Except.ok witVersionResp) witDecodeVersion
      (Except.ok witFeaturesResp) witDecodeFeatures).2.1
    witPluginDriver witVersionResp ⟨"mysql", "1.2.3"⟩ witFeaturesResp
    ⟨⟨true, true, true, true, true⟩⟩ rfl rfl rfl rfl rfl
